import Mathlib

/-!
Verification of the meal-logging and nutrition-aggregation pipeline of the
AI Diet Tracker application (src/app.py), shallowly embedded in Lean 4.

Modelling conventions:
* Spreadsheet cell values for the five numeric nutrition fields are modelled by
  `Cell`: either a number (`Cell.num`, rationals standing for the floats of the
  source) or a non-numeric text value (`Cell.str`, a malformed cell).
  `pd.to_numeric(..., errors := coerce).fillna(0)` maps a number to itself and a
  non-numeric text to 0; this is `coerceCell`.
* A calendar datetime is split into `dateDay : Int` (the calendar date, what
  pandas `.dt.date` yields) and `dateSecs : Nat` (the time-of-day part, which
  `.dt.date` discards).
* Lists stand for DataFrames / worksheet row ranges, in row order.
-/

namespace DietTracker

/-- A fetched spreadsheet cell in a numeric column: a number, or a malformed
(non-numeric) text value. -/
inductive Cell where
  | num (q : ℚ)
  | str (s : String)
deriving DecidableEq, Repr

/-- `pd.to_numeric(col, errors = coerce).fillna(0)` applied to one cell
(src/app.py lines 94-96): numbers pass through, non-numeric text becomes 0. -/
def coerceCell : Cell → ℚ
  | .num q => q
  | .str _ => 0

/-- Whether a cell holds a number. -/
def isNumCell : Cell → Bool
  | .num _ => true
  | .str _ => false

/-- One row of the `Logs` table (columns in source order:
User, Timestamp, Date, Meal, items_text, calories_kcal, protein_g, carbs_g,
fat_g, fiber_g, json_data). The `Date` column after `pd.to_datetime` is the
pair `dateDay`/`dateSecs`. -/
structure LogRow where
  user : String
  timestamp : String
  dateDay : Int
  dateSecs : Nat
  meal : String
  items_text : String
  calories_kcal : Cell
  protein_g : Cell
  carbs_g : Cell
  fat_g : Cell
  fiber_g : Cell
  json_data : String
deriving DecidableEq, Repr

/-- One row of the `Settings` table (columns: User, Setting, Value). -/
structure SettingRow where
  user : String
  setting : String
  value : Int
deriving DecidableEq, Repr

/-- `get_daily_logs` (src/app.py lines 89-97): filter the logs to one user,
then to the rows whose `Date`, taken as a calendar date (`.dt.date`), equals
the selected date; then coerce each of the five numeric columns. -/
def get_daily_logs (logs : List LogRow) (user : String) (selectedDate : Int) :
    List LogRow :=
  let user_df := logs.filter (fun r => r.user == user)
  let daily_df := user_df.filter (fun r => r.dateDay == selectedDate)
  daily_df.map (fun r =>
    { r with
      calories_kcal := .num (coerceCell r.calories_kcal)
      protein_g := .num (coerceCell r.protein_g)
      carbs_g := .num (coerceCell r.carbs_g)
      fat_g := .num (coerceCell r.fat_g)
      fiber_g := .num (coerceCell r.fiber_g) })

/-- The five daily totals displayed in the Daily Summary. -/
structure Totals where
  calories : ℚ
  protein : ℚ
  carbs : ℚ
  fat : ℚ
  fiber : ℚ
deriving DecidableEq, Repr

/-- `df[col].sum()` over one numeric column of a filtered frame. -/
def colSum (rows : List LogRow) (f : LogRow → Cell) : ℚ :=
  (rows.map (fun r => coerceCell (f r))).sum

/-- The Daily Summary totals (src/app.py lines 201-207): each total is the
column sum over `get_daily_logs`. -/
def dailyTotals (logs : List LogRow) (user : String) (selectedDate : Int) :
    Totals :=
  let daily_df := get_daily_logs logs user selectedDate
  { calories := colSum daily_df (·.calories_kcal)
    protein := colSum daily_df (·.protein_g)
    carbs := colSum daily_df (·.carbs_g)
    fat := colSum daily_df (·.fat_g)
    fiber := colSum daily_df (·.fiber_g) }

/-- Whether a log row matches a user and a calendar date (time of day is not
consulted). -/
def matchesUserDate (user : String) (d : Int) (r : LogRow) : Bool :=
  r.user == user && r.dateDay == d

/-- Written from the spec: the component-wise sum of one numeric field over
exactly the log entries matching the user and the calendar date. -/
def specFieldSum (logs : List LogRow) (user : String) (d : Int)
    (f : LogRow → Cell) : ℚ :=
  ((logs.filter (matchesUserDate user d)).map (fun r => coerceCell (f r))).sum

/-- Written from the spec: the daily totals as component-wise sums over the
matching entries. -/
def specDailyTotals (logs : List LogRow) (user : String) (d : Int) : Totals :=
  { calories := specFieldSum logs user d (·.calories_kcal)
    protein := specFieldSum logs user d (·.protein_g)
    carbs := specFieldSum logs user d (·.carbs_g)
    fat := specFieldSum logs user d (·.fat_g)
    fiber := specFieldSum logs user d (·.fiber_g) }

/-- The all-zero totals. -/
def zeroTotals : Totals := ⟨0, 0, 0, 0, 0⟩

lemma get_daily_logs_eq_filter (logs : List LogRow) (user : String) (d : Int) :
    get_daily_logs logs user d =
      (logs.filter (matchesUserDate user d)).map (fun r =>
        { r with
          calories_kcal := .num (coerceCell r.calories_kcal)
          protein_g := .num (coerceCell r.protein_g)
          carbs_g := .num (coerceCell r.carbs_g)
          fat_g := .num (coerceCell r.fat_g)
          fiber_g := .num (coerceCell r.fiber_g) }) := by
  have hpred : (fun (a : LogRow) => a.dateDay == d && a.user == user) =
      matchesUserDate user d := by
    funext a
    simp [matchesUserDate, Bool.and_comm]
  simp only [get_daily_logs, List.filter_filter, hpred]

lemma dailyTotals_eq_spec (logs : List LogRow) (user : String) (d : Int) :
    dailyTotals logs user d = specDailyTotals logs user d := by
  unfold dailyTotals specDailyTotals specFieldSum colSum
  rw [get_daily_logs_eq_filter]
  simp [List.map_map, Function.comp_def, coerceCell]

/-- C1: the daily totals equal the component-wise sum of the five numeric
fields over exactly the log entries whose user matches and whose `Date`,
compared as a calendar date ignoring time of day, matches; each total is zero
when no entry matches, and the totals are unchanged under any change of the
time-of-day components. -/
theorem claim_C1_daily_totals (logs : List LogRow) (user : String) (d : Int) :
    dailyTotals logs user d = specDailyTotals logs user d ∧
    (logs.filter (matchesUserDate user d) = [] →
      dailyTotals logs user d = zeroTotals) ∧
    (∀ g : LogRow → Nat,
      dailyTotals (logs.map (fun r => { r with dateSecs := g r })) user d =
        dailyTotals logs user d) := by
  refine ⟨dailyTotals_eq_spec logs user d, ?_, ?_⟩
  · intro h
    rw [dailyTotals_eq_spec]
    unfold specDailyTotals specFieldSum zeroTotals
    rw [h]
    simp
  · intro g
    rw [dailyTotals_eq_spec, dailyTotals_eq_spec]
    unfold specDailyTotals specFieldSum matchesUserDate
    simp [List.filter_map, Function.comp_def, List.map_map]

/-- Witness for C1 at concrete inputs: a two-row snapshot where one row matches
the user and date and the other (same user, different calendar day) does not,
and an empty snapshot giving all-zero totals. -/
theorem claim_C1_daily_totals_witness :
    dailyTotals
        [⟨"Suyash", "t1", 10, 3600, "Breakfast", "2 idli",
          .num 210, .num 5, .num 38, .num 4, .num 2, "d1"⟩,
         ⟨"Suyash", "t2", 11, 0, "Lunch", "1 bowl rice",
          .num 300, .num 6, .num 60, .num 3, .num 1, "d2"⟩]
        "Suyash" 10 =
      ⟨210, 5, 38, 4, 2⟩ ∧
    dailyTotals ([] : List LogRow) "Suyash" 10 = zeroTotals := by
  constructor
  · rw [(claim_C1_daily_totals _ "Suyash" 10).1]
    norm_num [specDailyTotals, specFieldSum, matchesUserDate, coerceCell]
  · exact (claim_C1_daily_totals [] "Suyash" 10).2.1 rfl

/-- `get_calorie_goal` (src/app.py lines 69-74): filter the Settings rows to
those whose User is `user` and whose Setting is the text Calorie Goal; return
the Value of the first such row, or 2000 when there is none (which also covers
the empty-frame guard). -/
def get_calorie_goal (settings : List SettingRow) (user : String) : Int :=
  match settings.find? (fun r => r.user == user && r.setting == "Calorie Goal")
    with
  | some r => r.value
  | none => 2000

/-- `set_calorie_goal` (src/app.py lines 76-87): `find(user, in_column := 1)`
returns the first row whose first column equals `user`; if found, only the
Value cell (column 3) of that row is overwritten in place; otherwise the row
`[user, Calorie Goal, new_goal]` is appended at the end. -/
def set_calorie_goal : List SettingRow → String → Int → List SettingRow
  | [], user, new_goal => [⟨user, "Calorie Goal", new_goal⟩]
  | r :: rs, user, new_goal =>
    if r.user == user then { r with value := new_goal } :: rs
    else r :: set_calorie_goal rs user new_goal

/-- The number of Settings rows whose first column is `user`. -/
def countUserRows (settings : List SettingRow) (user : String) : Nat :=
  (settings.filter (fun r => r.user == user)).length

lemma countUserRows_set_calorie_goal (settings : List SettingRow)
    (user : String) (g : Int) :
    countUserRows (set_calorie_goal settings user g) user =
      max (countUserRows settings user) 1 := by
  induction settings with
  | nil => simp [set_calorie_goal, countUserRows]
  | cons r rs ih =>
    by_cases h : r.user = user
    · simp [set_calorie_goal, countUserRows, h, List.filter_cons]
    · simpa [set_calorie_goal, countUserRows, h, List.filter_cons] using ih

lemma set_calorie_goal_of_not_found (settings : List SettingRow)
    (user : String) (g : Int) (h : ∀ r ∈ settings, r.user ≠ user) :
    set_calorie_goal settings user g =
      settings ++ [⟨user, "Calorie Goal", g⟩] := by
  induction settings with
  | nil => simp [set_calorie_goal]
  | cons r rs ih =>
    have hr : r.user ≠ user := h r (by simp)
    simp [set_calorie_goal, hr]
    exact ih (fun r' hr' => h r' (by simp [hr']))

lemma set_calorie_goal_length_of_found (settings : List SettingRow)
    (user : String) (g : Int) (h : ∃ r ∈ settings, r.user = user) :
    (set_calorie_goal settings user g).length = settings.length := by
  induction settings with
  | nil => simp at h
  | cons r rs ih =>
    by_cases hr : r.user = user
    · simp [set_calorie_goal, hr]
    · simp [set_calorie_goal, hr]
      apply ih
      obtain ⟨r', hr', hu⟩ := h
      rcases List.mem_cons.mp hr' with h1 | h2
      · exact absurd (h1 ▸ hu) hr
      · exact ⟨r', h2, hu⟩

/-- C3: starting from a Settings snapshot satisfying the documented invariant
(at most one row per user key), calling `set_calorie_goal` twice in succession
with the same value leaves exactly one row for that user key; moreover the
lookup searches the first column for the user, appending a new row exactly
when no row with that user exists, and otherwise overwriting in place without
changing the number of rows. -/
theorem claim_C3_upsert_idempotent (settings : List SettingRow) (user : String)
    (g : Int) :
    (countUserRows settings user ≤ 1 →
      countUserRows
        (set_calorie_goal (set_calorie_goal settings user g) user g) user
        = 1) ∧
    ((∀ r ∈ settings, r.user ≠ user) →
      set_calorie_goal settings user g =
        settings ++ [⟨user, "Calorie Goal", g⟩]) ∧
    ((∃ r ∈ settings, r.user = user) →
      (set_calorie_goal settings user g).length = settings.length) := by
  refine ⟨?_, set_calorie_goal_of_not_found settings user g,
    set_calorie_goal_length_of_found settings user g⟩
  intro h
  rw [countUserRows_set_calorie_goal, countUserRows_set_calorie_goal]
  omega

/-- Witness for C3 at a concrete input: two upserts of the goal 1800 for a
user absent from a one-row snapshot leave exactly one row for that user. -/
theorem claim_C3_upsert_idempotent_witness :
    countUserRows
      (set_calorie_goal
        (set_calorie_goal [⟨"Divyanshi", "Calorie Goal", 1700⟩] "Suyash" 1800)
        "Suyash" 1800)
      "Suyash" = 1 :=
  (claim_C3_upsert_idempotent [⟨"Divyanshi", "Calorie Goal", 1700⟩] "Suyash"
    1800).1 (by decide)

/-- Counterexample to C5 as stated: the claim quantifies over every snapshot
of Settings rows, but `set_calorie_goal` looks up the user in the first column
only and overwrites column 3 of whatever row it finds, while
`get_calorie_goal` filters on Setting = Calorie Goal as well.  On the snapshot
`[⟨"Suyash", "Water Goal", 5⟩]`, saving the goal 1500 overwrites the Water
Goal row's value, and the subsequent lookup still returns the default 2000,
not 1500. -/
theorem claim_C5_counterexample :
    get_calorie_goal
        (set_calorie_goal [⟨"Suyash", "Water Goal", 5⟩] "Suyash" 1500)
        "Suyash" = 2000 ∧
    (2000 : Int) ≠ 1500 := by
  constructor
  · rfl
  · decide

/-- C5 as amended: on snapshots in which every Settings row of the user is a
Calorie Goal row (the only kind this application ever writes),
`get_calorie_goal` returns 2000 when the user has no row, returns the stored
value of the first matching row otherwise, and returns exactly `X` right
after `set_calorie_goal user X`. -/
theorem claim_C5_calorie_goal (settings : List SettingRow) (user : String)
    (x : Int) (r : SettingRow) :
    ((∀ r' ∈ settings, r'.user ≠ user) →
      get_calorie_goal settings user = 2000) ∧
    (settings.find?
        (fun r' => r'.user == user && r'.setting == "Calorie Goal") = some r →
      get_calorie_goal settings user = r.value) ∧
    ((∀ r' ∈ settings, r'.user = user → r'.setting = "Calorie Goal") →
      get_calorie_goal (set_calorie_goal settings user x) user = x) := by
  refine ⟨?_, ?_, ?_⟩
  · intro h
    unfold get_calorie_goal
    rw [List.find?_eq_none.mpr]
    intro r' hr'
    simp [h r' hr']
  · intro h
    unfold get_calorie_goal
    rw [h]
  · intro h
    induction settings with
    | nil => simp [set_calorie_goal, get_calorie_goal]
    | cons r' rs ih =>
      by_cases hr : r'.user = user
      · have hs : r'.setting = "Calorie Goal" := h r' (by simp) hr
        simp [set_calorie_goal, get_calorie_goal, hr, hs, List.find?_cons]
      · simp [set_calorie_goal, get_calorie_goal, List.find?_cons, hr]
        exact ih (fun r'' hr'' => h r'' (by simp [hr'']))

/-- Witness for C5 (amended) at concrete inputs: a snapshot without the user
returns the default 2000; a stored row is returned verbatim; an upsert of 1500
is read back as 1500. -/
theorem claim_C5_calorie_goal_witness :
    get_calorie_goal [⟨"Divyanshi", "Calorie Goal", 1700⟩] "Suyash" = 2000 ∧
    get_calorie_goal [⟨"Suyash", "Calorie Goal", 1800⟩] "Suyash" = 1800 ∧
    get_calorie_goal
        (set_calorie_goal [⟨"Suyash", "Calorie Goal", 1800⟩] "Suyash" 1500)
        "Suyash" = 1500 := by
  refine ⟨?_, ?_, ?_⟩
  · exact (claim_C5_calorie_goal [⟨"Divyanshi", "Calorie Goal", 1700⟩]
      "Suyash" 0 ⟨"", "", 0⟩).1 (by decide)
  · exact (claim_C5_calorie_goal [⟨"Suyash", "Calorie Goal", 1800⟩]
      "Suyash" 0 ⟨"Suyash", "Calorie Goal", 1800⟩).2.1 (by decide)
  · exact (claim_C5_calorie_goal [⟨"Suyash", "Calorie Goal", 1800⟩]
      "Suyash" 1500 ⟨"", "", 0⟩).2.2 (by decide)

/-- Addition of two spreadsheet cell values, as pandas performs it when
summing an object column without numeric coercion: numbers add, text values
concatenate, and a mixed pair raises (`none`). -/
def addCell : Cell → Cell → Option Cell
  | .num a, .num b => some (.num (a + b))
  | .str a, .str b => some (.str (a ++ b))
  | _, _ => none

/-- `series.sum()` over the raw (uncoerced) cells of one groupby group, which
is never empty.  The result is `none` when the addition raises. -/
def groupSum : List Cell → Option Cell
  | [] => none
  | c :: cs => cs.foldl (fun acc x => acc.bind (fun a => addCell a x)) (some c)

/-- The raw `calories_kcal` cells of one user's rows on one calendar day.
`display_weekly_trend` (src/app.py lines 136-151) applies no numeric coercion
to them. -/
def dayCells (logs : List LogRow) (user : String) (day : Int) : List Cell :=
  ((logs.filter (fun r => r.user == user)).filter
    (fun r => r.dateDay == day)).map (·.calories_kcal)

/-- `display_weekly_trend`'s grouped series (src/app.py lines 144-148):
`start_date = end_date - 6 days`, rows of the user with
`start_date ≤ Date.dt.date ≤ end_date` are grouped by calendar day (pandas
sorts the group keys ascending), and `calories_kcal` is summed per group
without coercion.  Days with no rows produce no group. -/
def weeklyDailyCalories (logs : List LogRow) (user : String) (endDay : Int) :
    List (Int × Option Cell) :=
  (List.range 7).filterMap (fun (i : ℕ) =>
    let day := endDay - 6 + (i : ℤ)
    let cs := dayCells logs user day
    if cs.isEmpty then none else some (day, groupSum cs))

/-- The numeric value of a cell, if it is a number. -/
def cellNum? : Cell → Option ℚ
  | .num q => some q
  | .str _ => none

/-- The numeric values of the per-day group sums; `none` when any group sum
raised or produced a non-numeric value (so that `mean()` raises). -/
def groupVals : List (Int × Option Cell) → Option (List ℚ)
  | [] => some []
  | p :: ps =>
    match p.2.bind cellNum?, groupVals ps with
    | some q, some qs => some (q :: qs)
    | _, _ => none

/-- `daily_calories.mean()` (src/app.py line 150): the arithmetic mean of the
per-day sums over the days present in the grouped series; `none` when the
series is empty (the function returned early) or non-numeric. -/
def weeklyAvgCalories (logs : List LogRow) (user : String) (endDay : Int) :
    Option ℚ :=
  let gs := weeklyDailyCalories logs user endDay
  if gs.isEmpty then none
  else
    match groupVals gs with
    | some qs => some (qs.sum / (qs.length : ℚ))
    | none => none

/-- A log row for tests and counterexamples: only the user, the calendar day
and the calories cell vary; the other fields are fixed innocuous values. -/
def mkRow (user : String) (day : Int) (c : Cell) : LogRow :=
  ⟨user, "ts", day, 0, "Breakfast", "item", c, .num 0, .num 0, .num 0, .num 0,
    "raw"⟩

lemma weeklyDailyCalories_mem (logs : List LogRow) (user : String) (D : Int)
    {day : Int} {v : Option Cell}
    (h : (day, v) ∈ weeklyDailyCalories logs user D) :
    D - 6 ≤ day ∧ day ≤ D ∧ v = groupSum (dayCells logs user day) ∧
      ∃ r ∈ logs, r.user = user ∧ r.dateDay = day := by
  unfold weeklyDailyCalories at h
  obtain ⟨i, hi, hfi⟩ := List.mem_filterMap.mp h
  rw [List.mem_range] at hi
  dsimp only at hfi
  split at hfi
  · exact absurd hfi (by simp)
  · next hne =>
    rw [Option.some_inj, Prod.ext_iff] at hfi
    obtain ⟨hday, hv⟩ := hfi
    dsimp only at hday hv
    subst hday
    refine ⟨by omega, by omega, hv.symm, ?_⟩
    have hne2 : dayCells logs user (D - 6 + (i : ℤ)) ≠ [] := by
      simpa using hne
    obtain ⟨c, hc⟩ := List.exists_mem_of_ne_nil _ hne2
    unfold dayCells at hc
    obtain ⟨r, hr, _⟩ := List.mem_map.mp hc
    have hr2 := List.mem_filter.mp hr
    have hr3 := List.mem_filter.mp hr2.1
    exact ⟨r, hr3.1, by simpa using hr3.2, by simpa using hr2.2⟩

lemma weeklyDailyCalories_mem_of (logs : List LogRow) (user : String)
    (D : Int) {day : Int} (h1 : D - 6 ≤ day) (h2 : day ≤ D) (r : LogRow)
    (hr : r ∈ logs) (hu : r.user = user) (hd : r.dateDay = day) :
    (day, groupSum (dayCells logs user day)) ∈
      weeklyDailyCalories logs user D := by
  have hmem : r.calories_kcal ∈ dayCells logs user day := by
    unfold dayCells
    exact List.mem_map.mpr
      ⟨r, List.mem_filter.mpr
        ⟨List.mem_filter.mpr ⟨hr, by simp [hu]⟩, by simp [hd]⟩, rfl⟩
  have hne : (dayCells logs user day).isEmpty = false := by
    have := List.ne_nil_of_mem hmem
    simpa using this
  unfold weeklyDailyCalories
  rw [List.mem_filterMap]
  refine ⟨(day - (D - 6)).toNat, List.mem_range.mpr (by omega), ?_⟩
  have hcast : D - 6 + (((day - (D - 6)).toNat : ℕ) : ℤ) = day := by omega
  dsimp only
  rw [hcast, hne]
  simp

lemma pairwise_filterMap_of_pairwise {α β : Type} (f : α → Option β)
    (R : α → α → Prop) (S : β → β → Prop) (l : List α)
    (hl : l.Pairwise R)
    (hf : ∀ a b x y, R a b → f a = some x → f b = some y → S x y) :
    (l.filterMap f).Pairwise S := by
  induction l with
  | nil => simp
  | cons a l ih =>
    rw [List.pairwise_cons] at hl
    rw [List.filterMap_cons]
    cases hfa : f a with
    | none => exact ih hl.2
    | some x =>
      refine List.Pairwise.cons ?_ (ih hl.2)
      intro y hy
      obtain ⟨b, hb, hfb⟩ := List.mem_filterMap.mp hy
      exact hf a b x y (hl.1 b hb) hfa hfb

lemma weeklyDailyCalories_pairwise (logs : List LogRow) (user : String)
    (D : Int) :
    (weeklyDailyCalories logs user D).Pairwise (fun a b => a.1 ≠ b.1) := by
  unfold weeklyDailyCalories
  apply pairwise_filterMap_of_pairwise _ (· < ·) _ _ (List.pairwise_lt_range 7)
  intro a b x y hab hfa hfb
  dsimp only at hfa hfb
  split at hfa
  · exact absurd hfa (by simp)
  · split at hfb
    · exact absurd hfb (by simp)
    · rw [Option.some_inj] at hfa hfb
      rw [← hfa, ← hfb]
      dsimp only
      omega

lemma weekly_example (user : String) (D : Int) :
    weeklyDailyCalories
        [mkRow user (D - 2) (.num 300), mkRow user D (.num 500)] user D =
      [(D - 2, some (.num 300)), (D, some (.num 500))] := by
  simp only [weeklyDailyCalories, show List.range 7 = [0, 1, 2, 3, 4, 5, 6]
      from rfl,
    List.filterMap_cons, List.filterMap_nil, dayCells, mkRow, List.filter_cons,
    List.filter_nil, beq_self_eq_true, if_true, beq_iff_eq]
  norm_num
  simp [groupSum, show D - 6 + 4 = D - 2 by omega,
    show ¬(D - 2 = D - 6) by omega, show ¬(D - 2 = D - 6 + 1) by omega,
    show ¬(D - 2 = D - 6 + 2) by omega, show ¬(D - 2 = D - 6 + 3) by omega,
    show ¬(D - 2 = D - 6 + 5) by omega, show ¬(D - 2 = D) by omega,
    show ¬(D = D - 6) by omega, show ¬(D = D - 6 + 1) by omega,
    show ¬(D = D - 6 + 2) by omega, show ¬(D = D - 6 + 3) by omega,
    show ¬(D = D - 6 + 5) by omega, show ¬(D = D - 2) by omega]

/-- C4: `weeklyDailyCalories` considers exactly the 7 calendar days ending at
the end date inclusive; it contains one entry per day with at least one
matching log (a day appears exactly when a matching log exists, days without
entries are absent, and no day appears twice), the reported average is the
arithmetic mean over the present days only, and in particular logs of 300 kcal
on day D-2 and 500 kcal on day D yield exactly the two entries
(D-2, 300) and (D, 500) with average 400. -/
theorem claim_C4_weekly_trend (logs : List LogRow) (user : String) (D : Int) :
    (∀ day v, (day, v) ∈ weeklyDailyCalories logs user D →
      D - 6 ≤ day ∧ day ≤ D ∧ v = groupSum (dayCells logs user day) ∧
        ∃ r ∈ logs, r.user = user ∧ r.dateDay = day) ∧
    (∀ day, D - 6 ≤ day → day ≤ D →
      (∃ r ∈ logs, r.user = user ∧ r.dateDay = day) →
      (day, groupSum (dayCells logs user day)) ∈
        weeklyDailyCalories logs user D) ∧
    (weeklyDailyCalories logs user D).Pairwise (fun a b => a.1 ≠ b.1) ∧
    (∀ qs, groupVals (weeklyDailyCalories logs user D) = some qs →
      weeklyDailyCalories logs user D ≠ [] →
      weeklyAvgCalories logs user D = some (qs.sum / (qs.length : ℚ))) ∧
    weeklyDailyCalories
        [mkRow user (D - 2) (.num 300), mkRow user D (.num 500)] user D =
      [(D - 2, some (.num 300)), (D, some (.num 500))] ∧
    weeklyAvgCalories
        [mkRow user (D - 2) (.num 300), mkRow user D (.num 500)] user D =
      some 400 := by
  refine ⟨fun day v h => weeklyDailyCalories_mem logs user D h,
    fun day h1 h2 h3 => ?_, weeklyDailyCalories_pairwise logs user D,
    fun qs hqs hne => ?_, weekly_example user D, ?_⟩
  · obtain ⟨r, hr, hu, hd⟩ := h3
    exact weeklyDailyCalories_mem_of logs user D h1 h2 r hr hu hd
  · simp only [weeklyAvgCalories]
    rw [show (weeklyDailyCalories logs user D).isEmpty = false from by
      simpa using hne]
    simp [hqs]
  · simp only [weeklyAvgCalories]
    rw [weekly_example user D]
    norm_num [groupVals, cellNum?]

/-- Witness for C4 at concrete inputs: two logs, 300 kcal two days before the
end day 10 and 500 kcal on day 10, give exactly the entries (8, 300) and
(10, 500) and the average 400 over the two present days. -/
theorem claim_C4_weekly_trend_witness :
    (8, some (Cell.num 300)) ∈
      weeklyDailyCalories
        [mkRow "Suyash" 8 (.num 300), mkRow "Suyash" 10 (.num 500)]
        "Suyash" 10 ∧
    weeklyAvgCalories
        [mkRow "Suyash" 8 (.num 300), mkRow "Suyash" 10 (.num 500)]
        "Suyash" 10 = some 400 := by
  have h := claim_C4_weekly_trend
    [mkRow "Suyash" 8 (.num 300), mkRow "Suyash" 10 (.num 500)] "Suyash" 10
  constructor
  · have hmem := h.2.1 8 (by omega) (by omega)
      ⟨mkRow "Suyash" 8 (.num 300), by simp, rfl, rfl⟩
    have hcells : dayCells
        [mkRow "Suyash" 8 (.num 300), mkRow "Suyash" 10 (.num 500)]
        "Suyash" 8 = [.num 300] := rfl
    rwa [hcells] at hmem
  · have hex := h.2.2.2.2.2
    norm_num at hex ⊢
    exact hex

/-- Counterexample to C7 as stated: on a snapshot holding one malformed
(non-numeric) calorie cell and one numeric one on the same day, the weekly
trend does not coerce the malformed value to 0: `display_weekly_trend` sums
the raw column, so the group sum raises (modelled as `none`) instead of
yielding 100, and the mean raises as well. -/
theorem claim_C7_counterexample :
    weeklyDailyCalories
        [mkRow "Suyash" 0 (.str "oops"), mkRow "Suyash" 0 (.num 100)]
        "Suyash" 0 = [(0, none)] ∧
    weeklyDailyCalories
        [mkRow "Suyash" 0 (.str "oops"), mkRow "Suyash" 0 (.num 100)]
        "Suyash" 0 ≠ [(0, some (Cell.num 100))] ∧
    weeklyAvgCalories
        [mkRow "Suyash" 0 (.str "oops"), mkRow "Suyash" 0 (.num 100)]
        "Suyash" 0 = none := by
  refine ⟨rfl, ?_, rfl⟩
  rw [show weeklyDailyCalories
      [mkRow "Suyash" 0 (.str "oops"), mkRow "Suyash" 0 (.num 100)]
      "Suyash" 0 = [(0, none)] from rfl]
  simp

/-- C7 as amended: a malformed numeric cell in a fetched row is coerced to 0
by the daily aggregation (`get_daily_logs`) and the row stays in the daily
totals, but the weekly trend applies no coercion: with a malformed and a
numeric calorie cell on the same day, the weekly group sum and the weekly
average raise (modelled as `none`) rather than treating the malformed value
as 0. -/
theorem claim_C7_malformed_cells (user : String) (dd : Int) (s : String)
    (q : ℚ) :
    dailyTotals [mkRow user dd (.str s), mkRow user dd (.num q)] user dd =
      ⟨q, 0, 0, 0, 0⟩ ∧
    weeklyDailyCalories [mkRow user dd (.str s), mkRow user dd (.num q)]
      user dd = [(dd, none)] ∧
    weeklyAvgCalories [mkRow user dd (.str s), mkRow user dd (.num q)]
      user dd = none := by
  have hw : weeklyDailyCalories [mkRow user dd (.str s), mkRow user dd (.num q)]
      user dd = [(dd, none)] := by
    simp only [weeklyDailyCalories, show List.range 7 = [0, 1, 2, 3, 4, 5, 6]
        from rfl,
      List.filterMap_cons, List.filterMap_nil, dayCells, mkRow,
      List.filter_cons, List.filter_nil, beq_self_eq_true, if_true,
      beq_iff_eq]
    norm_num
    simp [groupSum, addCell, show ¬(dd = dd - 6) by omega,
      show ¬(dd = dd - 6 + 1) by omega, show ¬(dd = dd - 6 + 2) by omega,
      show ¬(dd = dd - 6 + 3) by omega, show ¬(dd = dd - 6 + 4) by omega,
      show ¬(dd = dd - 6 + 5) by omega]
  refine ⟨?_, hw, ?_⟩
  · rw [dailyTotals_eq_spec]
    simp [specDailyTotals, specFieldSum, matchesUserDate, coerceCell, mkRow]
  · simp only [weeklyAvgCalories]
    rw [hw]
    simp [groupVals, cellNum?]

/-- The `totals` object of the parsed Nutrition Estimator response
(`parsed_data.get('totals', ...)`, src/app.py line 247): each of the five
numeric fields may be absent (`none`). -/
structure TotalsResp where
  calories_kcal : Option ℚ := none
  protein_g : Option ℚ := none
  carbs_g : Option ℚ := none
  fat_g : Option ℚ := none
  fiber_g : Option ℚ := none
deriving DecidableEq, Repr

/-- Python str.split on the newline character, as a structural recursion on
the character list; empty segments are kept, and the empty string yields one
empty segment. -/
def splitOnNewline : List Char → List (List Char)
  | [] => [[]]
  | c :: cs =>
    match splitOnNewline cs with
    | [] => [[]]
    | l :: ls => if c = '\n' then [] :: l :: ls else (c :: l) :: ls

/-- `items_input.split` on newlines (src/app.py line 243). -/
def splitLines (s : String) : List String :=
  (splitOnNewline s.data).map (fun l => ⟨l⟩)

/-- Python str.strip: drop whitespace from both ends of the string. -/
def pyStrip (s : String) : String :=
  ⟨((s.data.dropWhile Char.isWhitespace).reverse.dropWhile
      Char.isWhitespace).reverse⟩

/-- `items_list` (src/app.py line 243): the input split on newlines, each line
stripped, blank lines dropped. -/
def itemsList (input : String) : List String :=
  ((splitLines input).map pyStrip).filter (fun l => l != "")

/-- `new_row_dict` (src/app.py lines 249-256): the LogEntry built on a meal
submit.  `items_text` joins the non-blank stripped lines with a semicolon and
a space; each numeric field is the estimator's totals value verbatim when
present and 0 when absent. -/
def buildLogEntry (user ts : String) (dd : Int) (meal input : String)
    (t : TotalsResp) (js : String) : LogRow :=
  { user := user
    timestamp := ts
    dateDay := dd
    dateSecs := 0
    meal := meal
    items_text := String.intercalate "; " (itemsList input)
    calories_kcal := .num (t.calories_kcal.getD 0)
    protein_g := .num (t.protein_g.getD 0)
    carbs_g := .num (t.carbs_g.getD 0)
    fat_g := .num (t.fat_g.getD 0)
    fiber_g := .num (t.fiber_g.getD 0)
    json_data := js }

/-- Observable side effects of one UI event handler. -/
inductive Effect where
  | estimatorCall
  | storeAppend
  | storeWriteError
  | storeUpsert
  | successShown
  | errorShown
deriving DecidableEq, Repr

/-- The state a UI event handler can touch: the remote store's two tables, the
session's in-memory snapshot of the logs, the session calorie goal, and
whether the 60-second data cache is still considered valid (`st.cache_data`
not cleared). -/
structure AppState where
  remoteLogs : List LogRow
  remoteSettings : List SettingRow
  sessionLogs : List LogRow
  sessionGoal : Int
  cacheValid : Bool
deriving DecidableEq, Repr

/-- The meal-log submit handler (src/app.py lines 240-268).  When the stripped
input is non-empty: the estimator is called, the entry is built, appended to
the in-memory session snapshot, and appended to the remote Logs table (the
append may fail, in which case an error is shown, but success is reported
regardless and the optimistic session append stays).  The cache-valid flag is
never touched.  When the stripped input is empty: only an error is shown. -/
def mealSubmit (s : AppState) (user ts : String) (dd : Int) (meal : String)
    (input : String) (t : TotalsResp) (js : String) (storeOk : Bool) :
    AppState × List Effect :=
  if pyStrip input ≠ "" then
    let entry := buildLogEntry user ts dd meal input t js
    let s1 : AppState := { s with sessionLogs := s.sessionLogs ++ [entry] }
    let s2 : AppState :=
      if storeOk then { s1 with remoteLogs := s1.remoteLogs ++ [entry] }
      else s1
    (s2, [.estimatorCall] ++
      (if storeOk then [.storeAppend] else [.storeWriteError]) ++
      [.successShown])
  else (s, [.errorShown])

/-- The goal-save handler (src/app.py lines 192-197): the session goal is set,
`set_calorie_goal` is attempted, and on success the data cache is cleared
(`st.cache_data.clear()`); on failure only an error is shown. -/
def goalSave (s : AppState) (user : String) (g : Int) (storeOk : Bool) :
    AppState × List Effect :=
  let s1 : AppState := { s with sessionGoal := g }
  if storeOk then
    let s2 : AppState :=
      { s1 with
        remoteSettings := set_calorie_goal s1.remoteSettings user g
        cacheValid := false }
    (s2, [.storeUpsert, .successShown])
  else (s1, [.errorShown])

/-- An initial concrete state with a valid cache, for counterexamples and
witnesses. -/
def state0 : AppState :=
  { remoteLogs := [], remoteSettings := [], sessionLogs := [],
    sessionGoal := 2000, cacheValid := true }

/-- Counterexample to C2 as stated: a successful meal-log append (the store
append effect occurs) leaves the data cache valid — the handler never calls
`st.cache_data.clear()` — so not every successful write invalidates the
cache. -/
theorem claim_C2_counterexample :
    Effect.storeAppend ∈
      (mealSubmit state0 "Suyash" "ts" 0 "Breakfast" "2 idli"
        { calories_kcal := some 104 } "raw" true).2 ∧
    (mealSubmit state0 "Suyash" "ts" 0 "Breakfast" "2 idli"
        { calories_kcal := some 104 } "raw" true).1.cacheValid = true := by
  have hne : pyStrip "2 idli" ≠ "" := by decide
  constructor
  · simp [mealSubmit, hne]
  · simp [mealSubmit, hne, state0]

/-- C2 as amended: a successful goal save invalidates the data cache, but a
meal-log append never does; instead the new entry is appended to the session's
in-memory snapshot, so the session still sees its own write on the next
render without a refetch. -/
theorem claim_C2_write_invalidation (s : AppState) (user ts : String)
    (dd : Int) (meal input : String) (t : TotalsResp) (js : String)
    (g : Int) (storeOk : Bool) :
    (goalSave s user g true).1.cacheValid = false ∧
    (mealSubmit s user ts dd meal input t js storeOk).1.cacheValid =
      s.cacheValid ∧
    (pyStrip input ≠ "" →
      buildLogEntry user ts dd meal input t js ∈
        (mealSubmit s user ts dd meal input t js storeOk).1.sessionLogs) := by
  refine ⟨by simp [goalSave], ?_, ?_⟩
  · unfold mealSubmit
    split
    · dsimp only
      split <;> rfl
    · rfl
  · intro h
    unfold mealSubmit
    rw [if_pos h]
    dsimp only
    split <;> simp

/-- Witness for C2 (amended) at concrete inputs: saving a goal clears the
cache, and a logged meal entry is visible in the session snapshot. -/
theorem claim_C2_write_invalidation_witness :
    (goalSave state0 "Suyash" 1800 true).1.cacheValid = false ∧
    buildLogEntry "Suyash" "ts" 0 "Breakfast" "2 idli"
        { calories_kcal := some 104 } "raw" ∈
      (mealSubmit state0 "Suyash" "ts" 0 "Breakfast" "2 idli"
        { calories_kcal := some 104 } "raw" true).1.sessionLogs := by
  have h := claim_C2_write_invalidation state0 "Suyash" "ts" 0 "Breakfast"
    "2 idli" { calories_kcal := some 104 } "raw" 1800 true
  exact ⟨h.1, h.2.2 (by decide)⟩

/-- C6: the constructed LogEntry's `items_text` equals the input's non-blank
stripped lines joined with a semicolon and a space, its five numeric totals
copy the estimator's totals object verbatim when present, and in particular
the input lines 2 idli / 1 cup sambar give the items text
"2 idli; 1 cup sambar". -/
theorem claim_C6_entry_roundtrip (user ts : String) (dd : Int)
    (meal input : String) (t : TotalsResp) (js : String) :
    (buildLogEntry user ts dd meal input t js).items_text =
      String.intercalate "; "
        (((splitLines input).map pyStrip).filter (fun l => l != "")) ∧
    (∀ q, t.calories_kcal = some q →
      (buildLogEntry user ts dd meal input t js).calories_kcal = .num q) ∧
    (∀ q, t.protein_g = some q →
      (buildLogEntry user ts dd meal input t js).protein_g = .num q) ∧
    (∀ q, t.carbs_g = some q →
      (buildLogEntry user ts dd meal input t js).carbs_g = .num q) ∧
    (∀ q, t.fat_g = some q →
      (buildLogEntry user ts dd meal input t js).fat_g = .num q) ∧
    (∀ q, t.fiber_g = some q →
      (buildLogEntry user ts dd meal input t js).fiber_g = .num q) ∧
    (buildLogEntry user ts dd meal "2 idli\n1 cup sambar" t js).items_text =
      "2 idli; 1 cup sambar" := by
  refine ⟨rfl, ?_, ?_, ?_, ?_, ?_, rfl⟩ <;>
    { intro q h
      simp [buildLogEntry, h] }

/-- Witness for C6 at concrete inputs: a two-line meal with a full estimator
totals object is copied verbatim into the entry. -/
theorem claim_C6_entry_roundtrip_witness :
    (buildLogEntry "Suyash" "ts" 0 "Breakfast" "2 idli\n1 cup sambar"
        ⟨some 360.5, some 13.2, some 58, some 8.5, some 7.2⟩
        "raw").items_text = "2 idli; 1 cup sambar" ∧
    (buildLogEntry "Suyash" "ts" 0 "Breakfast" "2 idli\n1 cup sambar"
        ⟨some 360.5, some 13.2, some 58, some 8.5, some 7.2⟩
        "raw").calories_kcal = .num 360.5 := by
  have h := claim_C6_entry_roundtrip "Suyash" "ts" 0 "Breakfast"
    "2 idli\n1 cup sambar" ⟨some 360.5, some 13.2, some 58, some 8.5, some 7.2⟩
    "raw"
  exact ⟨h.2.2.2.2.2.2, h.2.1 360.5 rfl⟩

/-- C8: a meal submission whose input is empty or whitespace-only only shows
an error: the handler's result is the unchanged state with the single
error-shown effect, so the estimator is not called, no store append occurs,
and the session snapshot and remote logs are unchanged. -/
theorem claim_C8_empty_input (s : AppState) (user ts : String) (dd : Int)
    (meal input : String) (t : TotalsResp) (js : String) (storeOk : Bool)
    (h : pyStrip input = "") :
    mealSubmit s user ts dd meal input t js storeOk =
      (s, [Effect.errorShown]) ∧
    Effect.estimatorCall ∉
      (mealSubmit s user ts dd meal input t js storeOk).2 ∧
    Effect.storeAppend ∉
      (mealSubmit s user ts dd meal input t js storeOk).2 ∧
    (mealSubmit s user ts dd meal input t js storeOk).1 = s := by
  have he : ¬ (pyStrip input ≠ "") := by simp [h]
  unfold mealSubmit
  rw [if_neg he]
  exact ⟨rfl, by simp, by simp, rfl⟩

/-- Witness for C8 at a concrete whitespace-only input. -/
theorem claim_C8_empty_input_witness :
    mealSubmit state0 "Suyash" "ts" 0 "Breakfast" "  \n " ⟨none, none, none,
      none, none⟩ "raw" true = (state0, [Effect.errorShown]) :=
  (claim_C8_empty_input state0 "Suyash" "ts" 0 "Breakfast" "  \n "
    ⟨none, none, none, none, none⟩ "raw" true (by decide)).1

/-- C9: every estimator totals field that is absent from the response defaults
to 0 in the constructed LogEntry, and each of the five numeric fields of the
constructed LogEntry is always a number — never null or missing. -/
theorem claim_C9_missing_defaults (user ts : String) (dd : Int)
    (meal input : String) (t : TotalsResp) (js : String) :
    (t.calories_kcal = none →
      (buildLogEntry user ts dd meal input t js).calories_kcal = .num 0) ∧
    (t.protein_g = none →
      (buildLogEntry user ts dd meal input t js).protein_g = .num 0) ∧
    (t.carbs_g = none →
      (buildLogEntry user ts dd meal input t js).carbs_g = .num 0) ∧
    (t.fat_g = none →
      (buildLogEntry user ts dd meal input t js).fat_g = .num 0) ∧
    (t.fiber_g = none →
      (buildLogEntry user ts dd meal input t js).fiber_g = .num 0) ∧
    isNumCell ((buildLogEntry user ts dd meal input t js).calories_kcal) ∧
    isNumCell ((buildLogEntry user ts dd meal input t js).protein_g) ∧
    isNumCell ((buildLogEntry user ts dd meal input t js).carbs_g) ∧
    isNumCell ((buildLogEntry user ts dd meal input t js).fat_g) ∧
    isNumCell ((buildLogEntry user ts dd meal input t js).fiber_g) := by
  refine ⟨?_, ?_, ?_, ?_, ?_, rfl, rfl, rfl, rfl, rfl⟩ <;>
    { intro h
      simp [buildLogEntry, h] }

/-- Witness for C9 at a concrete input: an estimator response with every
totals field absent yields an entry whose numeric fields are all 0. -/
theorem claim_C9_missing_defaults_witness :
    (buildLogEntry "Suyash" "ts" 0 "Lunch" "1 bowl rice"
        ⟨none, none, none, none, none⟩ "raw").calories_kcal = .num 0 ∧
    (buildLogEntry "Suyash" "ts" 0 "Lunch" "1 bowl rice"
        ⟨none, none, none, none, none⟩ "raw").fiber_g = .num 0 := by
  have h := claim_C9_missing_defaults "Suyash" "ts" 0 "Lunch" "1 bowl rice"
    ⟨none, none, none, none, none⟩ "raw"
  exact ⟨h.1 rfl, h.2.2.2.2.1 rfl⟩

/-- `calorie_progress` (src/app.py line 210): when the session goal is
positive, the displayed progress is the ratio of the daily calorie total to
the goal clamped above at 1; otherwise the division is skipped and the
progress is 0. -/
def calorieProgress (total : ℚ) (goal : Int) : ℚ :=
  if 0 < goal then min (total / (goal : ℚ)) 1 else 0

/-- C10: for every non-negative daily total and non-negative goal the
displayed progress fraction is well-defined and lies in [0, 1]; it is 0 when
the goal is 0 (the division is skipped), and otherwise it is the ratio
clamped above at 1. -/
theorem claim_C10_progress_clamped (total : ℚ) (goal : Int) (h1 : 0 ≤ total)
    (h2 : 0 ≤ goal) :
    0 ≤ calorieProgress total goal ∧ calorieProgress total goal ≤ 1 ∧
    (goal = 0 → calorieProgress total goal = 0) ∧
    (0 < goal →
      calorieProgress total goal = min (total / (goal : ℚ)) 1) := by
  unfold calorieProgress
  by_cases hg : 0 < goal
  · rw [if_pos hg]
    have hgq : (0 : ℚ) ≤ (goal : ℚ) := by exact_mod_cast h2
    exact ⟨le_min (div_nonneg h1 hgq) zero_le_one, min_le_right _ _,
      fun h0 => absurd hg (by omega), fun _ => rfl⟩
  · rw [if_neg hg]
    exact ⟨le_refl 0, zero_le_one, fun _ => rfl, fun hc => absurd hc hg⟩

/-- Witness for C10 at concrete inputs: a total above the goal is clamped to
1, and a zero goal gives progress 0. -/
theorem claim_C10_progress_clamped_witness :
    0 ≤ calorieProgress 2500 2000 ∧ calorieProgress 2500 2000 ≤ 1 ∧
    calorieProgress 500 0 = 0 := by
  have h1 := claim_C10_progress_clamped 2500 2000 (by norm_num) (by norm_num)
  have h2 := claim_C10_progress_clamped 500 0 (by norm_num) (by norm_num)
  exact ⟨h1.1, h1.2.1, h2.2.2.1 rfl⟩

end DietTracker

